import Mathlib

/-!
Verification of the SHORTLY URL shortener core
(`src/Simple_url_shortener.py`, `src/validate_url.py`).

Shallow embedding conventions:
* The SQLite `urls` table is an association list `Store := List (String × URLRecord)`
  keyed by the short id; `SELECT ... WHERE x=? ... fetchone()` is the first match,
  `DELETE` removes all matches, `UPDATE` maps over all matches, `INSERT` appends.
* Wall-clock instants are natural numbers (microseconds).  The on-disk
  timestamp column stores the `strftime("%Y-%m-%d %H:%M:%S.%f")` rendering of an
  instant.  That format is fixed-width and zero padded, so its lexicographic
  order agrees with chronological order, and `strptime` with the same pattern
  accepts exactly canonically rendered stamps.  We model it by `fmtTs`
  (the instant printed as 20 zero-padded decimal digits) and `parseTs`
  (defined only on canonical renderings); strings outside the format play the
  role of the "legacy, unparseable" stamps the code tolerates.  SQLite's
  BINARY collation on TEXT (used by `expires_at < ?` in the cleanup sweep)
  is byte-wise comparison, modelled by `textLt` / `sqlTextLt`.
* `secrets.choice`-built candidates are supplied by an oracle
  `draw : Nat → Nat → String`: `draw i len` is the string produced by the
  `i`-th call of `generate_short_url` with the given length.
* Python `int(...)` applied to the JSON value of `expiry_days` is modelled by
  `pyToInt` over `PyVal`: JSON null, booleans (`int(True) = 1`), integers,
  finite floats (every finite double is a rational; `int` truncates it toward
  zero) and strings.  String conversion follows CPython for ASCII content:
  surrounding ASCII whitespace, an optional sign, decimal digits with
  PEP-515 underscores between digits.  CPython additionally accepts Unicode
  decimal digits and non-ASCII whitespace in strings; those are outside this
  model, so the failure-side statements are guarded by `pyIntRaises`, which
  asserts a raise only for ASCII strings (where the model is exact).
  Non-finite floats (`int(inf)` raises an uncaught `OverflowError`) are
  likewise outside the model.
-/

set_option linter.unusedVariables false

namespace Shortly

/-! ### Timestamp rendering and parsing (strftime / strptime model) -/

def digitChar : Nat → Char
  | 0 => '0'
  | 1 => '1'
  | 2 => '2'
  | 3 => '3'
  | 4 => '4'
  | 5 => '5'
  | 6 => '6'
  | 7 => '7'
  | 8 => '8'
  | 9 => '9'
  | _ => '0'

def digitVal (c : Char) : Nat := c.toNat - 48

def isDigitCh (c : Char) : Bool := decide (48 ≤ c.toNat) && decide (c.toNat ≤ 57)

/-- Big-endian, zero-padded decimal rendering of `t` on `w` digits. -/
def padDec : Nat → Nat → List Char
  | 0, _ => []
  | w + 1, t => digitChar (t / 10 ^ w) :: padDec w (t % 10 ^ w)

/-- Decimal value of a digit string. -/
def decDigits (l : List Char) : Nat := l.foldl (fun n c => n * 10 + digitVal c) 0

/-- `strftime("%Y-%m-%d %H:%M:%S.%f")` model: the canonical, fixed-width,
zero-padded rendering of an instant (20 decimal digits). -/
def fmtTs (t : Nat) : String := String.mk (padDec 20 t)

/-- `datetime.strptime(s, "%Y-%m-%d %H:%M:%S.%f")` model: succeeds exactly on
canonical renderings, returning the instant; every other string raises
`ValueError` (result `none`), which is how the code treats legacy stamps. -/
def parseTs (s : String) : Option Nat :=
  if s.data.length = 20 ∧ s.data.all isDigitCh = true ∧ fmtTs (decDigits s.data) = s then
    some (decDigits s.data)
  else
    Option.none

/-- Byte-wise (BINARY collation) comparison of two character lists, as SQLite
compares TEXT values; on the ASCII strings at play this is codepoint
lexicographic order. -/
def textLt : List Char → List Char → Bool
  | [], [] => false
  | [], _ :: _ => true
  | _ :: _, [] => false
  | a :: as, b :: bs =>
    if a.toNat < b.toNat then true
    else if b.toNat < a.toNat then false
    else textLt as bs

/-- SQL `s1 < s2` on the TEXT column `expires_at`. -/
def sqlTextLt (a b : String) : Bool := textLt a.data b.data

theorem digitChar_isDigit (d : Nat) : isDigitCh (digitChar d) = true := by
  unfold digitChar
  split <;> decide

theorem digitVal_digitChar (d : Nat) (h : d < 10) : digitVal (digitChar d) = d := by
  interval_cases d <;> decide

theorem digitChar_toNat (d : Nat) (h : d < 10) : (digitChar d).toNat = 48 + d := by
  interval_cases d <;> decide

theorem padDec_length (w : Nat) : ∀ t, (padDec w t).length = w := by
  induction w with
  | zero => intro t; rfl
  | succ w ih => intro t; simp [padDec, ih]

theorem padDec_all_digit (w : Nat) : ∀ t, (padDec w t).all isDigitCh = true := by
  induction w with
  | zero => intro t; rfl
  | succ w ih => intro t; simp [padDec, List.all_cons, digitChar_isDigit, ih]

theorem foldl_digits_padDec (w : Nat) :
    ∀ acc t, t < 10 ^ w →
      List.foldl (fun n c => n * 10 + digitVal c) acc (padDec w t) = acc * 10 ^ w + t := by
  induction w with
  | zero =>
    intro acc t ht
    have ht0 : t = 0 := by omega
    subst ht0
    simp [padDec]
  | succ w ih =>
    intro acc t ht
    have hpos : 0 < 10 ^ w := Nat.pos_pow_of_pos w (by omega)
    have hd : t / 10 ^ w < 10 := by
      apply Nat.div_lt_of_lt_mul
      rw [pow_succ] at ht
      omega
    simp only [padDec, List.foldl_cons]
    rw [digitVal_digitChar _ hd, ih (acc * 10 + t / 10 ^ w) (t % 10 ^ w) (Nat.mod_lt _ hpos)]
    calc (acc * 10 + t / 10 ^ w) * 10 ^ w + t % 10 ^ w
        = acc * (10 ^ w * 10) + (10 ^ w * (t / 10 ^ w) + t % 10 ^ w) := by ring
      _ = acc * 10 ^ (w + 1) + t := by rw [Nat.div_add_mod, pow_succ]

theorem decDigits_padDec (w t : Nat) (h : t < 10 ^ w) : decDigits (padDec w t) = t := by
  have h0 := foldl_digits_padDec w 0 t h
  unfold decDigits
  omega

theorem foldl_digits_lt (l : List Char) (hdig : l.all isDigitCh = true) :
    ∀ acc, List.foldl (fun n c => n * 10 + digitVal c) acc l < (acc + 1) * 10 ^ l.length := by
  induction l with
  | nil =>
    intro acc
    simp only [List.foldl_nil, List.length_nil, pow_zero, mul_one]
    exact Nat.lt_succ_self acc
  | cons c r ih =>
    intro acc
    rw [List.all_cons, Bool.and_eq_true] at hdig
    have hv : digitVal c ≤ 9 := by
      have h1 := hdig.1
      simp only [isDigitCh, Bool.and_eq_true, decide_eq_true_eq] at h1
      unfold digitVal
      omega
    simp only [List.foldl_cons, List.length_cons]
    have h1 := ih hdig.2 (acc * 10 + digitVal c)
    have h2 : (acc * 10 + digitVal c + 1) * 10 ^ r.length ≤ ((acc + 1) * 10) * 10 ^ r.length :=
      Nat.mul_le_mul (by omega) (Nat.le_refl _)
    have h3 : ((acc + 1) * 10) * 10 ^ r.length = (acc + 1) * 10 ^ (r.length + 1) := by ring
    omega

theorem decDigits_lt (l : List Char) (hdig : l.all isDigitCh = true) :
    decDigits l < 10 ^ l.length := by
  have h0 := foldl_digits_lt l hdig 0
  unfold decDigits
  omega

theorem mul_add_lt_of_head_lt {P d d' r r' : Nat} (hr : r < P) (h : d < d') :
    P * d + r < P * d' + r' := by
  have h2 : P * (d + 1) ≤ P * d' := Nat.mul_le_mul (Nat.le_refl P) h
  have h3 : P * (d + 1) = P * d + P := by ring
  omega

theorem textLt_padDec_iff (w : Nat) :
    ∀ t t', t < 10 ^ w → t' < 10 ^ w →
      (textLt (padDec w t) (padDec w t') = true ↔ t < t') := by
  induction w with
  | zero =>
    intro t t' ht ht'
    constructor
    · intro h
      simp [padDec, textLt] at h
    · intro h
      omega
  | succ w ih =>
    intro t t' ht ht'
    have hpos : 0 < 10 ^ w := Nat.pos_pow_of_pos w (by omega)
    have hd : t / 10 ^ w < 10 := by
      apply Nat.div_lt_of_lt_mul; rw [pow_succ] at ht; omega
    have hd' : t' / 10 ^ w < 10 := by
      apply Nat.div_lt_of_lt_mul; rw [pow_succ] at ht'; omega
    have hr : t % 10 ^ w < 10 ^ w := Nat.mod_lt _ hpos
    have hr' : t' % 10 ^ w < 10 ^ w := Nat.mod_lt _ hpos
    have h1 : 10 ^ w * (t / 10 ^ w) + t % 10 ^ w = t := Nat.div_add_mod t (10 ^ w)
    have h2 : 10 ^ w * (t' / 10 ^ w) + t' % 10 ^ w = t' := Nat.div_add_mod t' (10 ^ w)
    simp only [padDec, textLt]
    rw [digitChar_toNat _ hd, digitChar_toNat _ hd']
    rcases Nat.lt_trichotomy (t / 10 ^ w) (t' / 10 ^ w) with hlt | heq | hgt
    · rw [if_pos (by omega)]
      apply iff_of_true rfl
      have h3 := @mul_add_lt_of_head_lt (10 ^ w) (t / 10 ^ w) (t' / 10 ^ w) (t % 10 ^ w) (t' % 10 ^ w) hr hlt
      omega
    · rw [if_neg (by omega), if_neg (by omega)]
      rw [ih (t % 10 ^ w) (t' % 10 ^ w) hr hr']
      rw [heq] at h1
      constructor <;> intro <;> omega
    · rw [if_neg (by omega), if_pos (by omega)]
      apply iff_of_false (by simp)
      have h3 := @mul_add_lt_of_head_lt (10 ^ w) (t' / 10 ^ w) (t / 10 ^ w) (t' % 10 ^ w) (t % 10 ^ w) hr' hgt
      omega

theorem sqlTextLt_fmtTs_iff (t t' : Nat) (ht : t < 10 ^ 20) (ht' : t' < 10 ^ 20) :
    sqlTextLt (fmtTs t) (fmtTs t') = true ↔ t < t' :=
  textLt_padDec_iff 20 t t' ht ht'

theorem parseTs_fmtTs (t : Nat) (h : t < 10 ^ 20) : parseTs (fmtTs t) = some t := by
  have hdata : (fmtTs t).data = padDec 20 t := rfl
  have hdec : decDigits (padDec 20 t) = t := decDigits_padDec 20 t h
  unfold parseTs
  rw [hdata, hdec]
  rw [if_pos ⟨padDec_length 20 t, padDec_all_digit 20 t, rfl⟩]

theorem parseTs_some {s : String} {t : Nat} (h : parseTs s = some t) :
    s = fmtTs t ∧ t < 10 ^ 20 := by
  unfold parseTs at h
  split at h
  case isTrue hcond =>
    obtain ⟨hlen, hdig, hfmt⟩ := hcond
    have ht : t = decDigits s.data := by
      injection h with h'
      exact h'.symm
    constructor
    · rw [ht]
      exact hfmt.symm
    · have := decDigits_lt s.data hdig
      rw [hlen] at this
      rw [ht]
      exact this
  case isFalse => exact absurd h (by simp)

/-! ### URL normalization (`normalize_url` and the `urllib.parse` model) -/

def isSpaceCh (c : Char) : Bool :=
  c == ' ' || c == Char.ofNat 9 || c == Char.ofNat 10 || c == Char.ofNat 13 ||
  c == Char.ofNat 11 || c == Char.ofNat 12

/-- Python `str.strip()`: drop whitespace at both ends (ASCII whitespace). -/
def trimList (l : List Char) : List Char :=
  ((l.dropWhile isSpaceCh).reverse.dropWhile isSpaceCh).reverse

def pyStrip (s : String) : String := String.mk (trimList s.data)

/-- `org_url.startswith(("http://", "https://"))`. -/
def hasHttpScheme (s : String) : Bool :=
  "http://".data.isPrefixOf s.data || "https://".data.isPrefixOf s.data

/-- The `https://`-defaulting step of `normalize_url`. -/
def withDefaultScheme (s : String) : String :=
  if hasHttpScheme s then s else "https://" ++ s

structure UrlParts where
  scheme : String
  netloc : String
deriving DecidableEq, Repr

def scheme_chars (c : Char) : Bool :=
  c.isAlpha || c.isDigit || c == '+' || c == '-' || c == '.'

/-- Split at the first colon: `some (before, after)` when a colon occurs. -/
def splitAtColon : List Char → Option (List Char × List Char)
  | [] => Option.none
  | c :: rest =>
    if c = ':' then some ([], rest)
    else
      match splitAtColon rest with
      | Option.none => Option.none
      | some (pre, post) => some (c :: pre, post)

/-- CPython `urlsplit` scheme extraction: a scheme is a non-empty run of
scheme characters starting with an ASCII letter, ending at the first colon;
otherwise the input is left whole with an empty scheme. -/
def splitScheme (l : List Char) : List Char × List Char :=
  match splitAtColon l with
  | Option.none => ([], l)
  | some (pre, post) =>
    match pre with
    | [] => ([], l)
    | c :: _ =>
      if c.isAlpha && pre.all scheme_chars then (pre.map Char.toLower, post) else ([], l)

/-- CPython `_splitnetloc`: after a leading `//`, the netloc runs up to the
first of `/`, `?`, `#`. -/
def netlocOf (l : List Char) : List Char :=
  match l with
  | a :: b :: rest =>
    if a = '/' ∧ b = '/' then
      rest.takeWhile (fun c => !(c == '/' || c == '?' || c == '#'))
    else []
  | _ => []

def hasBracketMismatch (nl : List Char) : Bool :=
  (nl.contains '[' && !(nl.contains ']')) || (nl.contains ']' && !(nl.contains '['))

/-- `urllib.parse.urlparse`, restricted to the `scheme` / `netloc` components
the code reads.  Mirrors CPython `urlsplit`: strip leading C0-control/space
characters, remove tab/CR/LF, split off a valid scheme at the first colon,
take `netloc` after `//` up to the first of `/?#`, and raise `ValueError`
(modelled as `Except.error`) on an unbalanced square bracket in the netloc. -/
def urlparseSN (s : String) : Except String UrlParts :=
  let l := (s.data.dropWhile (fun c => decide (c.toNat ≤ 32))).filter
    (fun c => !(c == Char.ofNat 9 || c == Char.ofNat 13 || c == Char.ofNat 10))
  let p := splitScheme l
  let nl := netlocOf p.2
  if hasBracketMismatch nl then Except.error "Invalid IPv6 URL"
  else Except.ok ⟨String.mk p.1, String.mk nl⟩

/-- `normalize_url` (`src/Simple_url_shortener.py`, lines 193-211): trim, fail
on empty, default the scheme to `https://`, parse, and require an
`http`/`https` scheme and a non-empty host.  A raised `ValueError` is
`Except.error`. -/
def normalize_url (org_url : Option String) : Except String String :=
  match org_url with
  | Option.none => Except.error "URL is required"
  | some s0 =>
    let s := pyStrip s0
    if s = "" then Except.error "URL is required"
    else
      let u := withDefaultScheme s
      match urlparseSN u with
      | Except.error e => Except.error e
      | Except.ok pr =>
        if pr.scheme = "http" ∨ pr.scheme = "https" then
          if pr.netloc = "" then Except.error "Invalid URL host"
          else Except.ok u
        else Except.error "Only http/https URLs are allowed"

/-! ### Expiry-days validation (`parse_expiry_days`) -/

/-- The JSON shapes `data.get("expiry_days", 7)` can produce: `null`, a bool,
an integer, a (finite) float — represented exactly by a rational — or a
string. -/
inductive PyVal
  | pyNone
  | pyBool (b : Bool)
  | pyInt (n : Int)
  | pyFloat (q : Rat)
  | pyStr (s : String)
deriving DecidableEq, Repr

/-- Python `int(float)`: truncation toward zero (`int(2.5) = 2`,
`int(-2.5) = -2`). -/
def floatToInt (q : Rat) : Int := Int.tdiv q.num (q.den : Int)

/-- The digit run of a Python integer literal after the sign, with PEP-515
underscores: a digit, then digits with single underscores strictly between
digits (`int("1_2") = 12`; `"_1"`, `"1_"`, `"1__2"` all raise).  Returns the
digits with the underscores removed. -/
def digitsURest : List Char → Option (List Char)
  | [] => some []
  | [c] => if isDigitCh c then some [c] else Option.none
  | c :: c2 :: rest =>
    if isDigitCh c then (digitsURest (c2 :: rest)).map (fun l => c :: l)
    else if c = '_' ∧ isDigitCh c2 = true then (digitsURest rest).map (fun l => c2 :: l)
    else Option.none

def digitsU (l : List Char) : Option (List Char) :=
  match l with
  | [] => Option.none
  | c :: rest =>
    if isDigitCh c then (digitsURest rest).map (fun lr => c :: lr) else Option.none

/-- Python `int(str)` on ASCII content: strip surrounding ASCII whitespace
(space, `\t`, `\n`, `\v`, `\f`, `\r` — `int` does not strip `\x1c`-`\x1f`),
an optional sign, then digits with PEP-515 underscores; anything else raises
`ValueError` (`none`).  (CPython also accepts Unicode decimal digits and
non-ASCII whitespace; see `pyIntRaises`.) -/
def strToInt (s : String) : Option Int :=
  match trimList s.data with
  | [] => Option.none
  | c :: rest =>
    if c = '-' then (digitsU rest).map (fun l => -((decDigits l : Nat) : Int))
    else if c = '+' then (digitsU rest).map (fun l => ((decDigits l : Nat) : Int))
    else (digitsU (c :: rest)).map (fun l => ((decDigits l : Nat) : Int))

/-- Python `int(...)` on the modelled JSON values; `none` is a raise.  (The
`pyNone` arm is unreachable through `parse_expiry_days`, which handles `None`
before converting.) -/
def pyToInt : PyVal → Option Int
  | PyVal.pyNone => Option.none
  | PyVal.pyBool b => some (if b then 1 else 0)
  | PyVal.pyInt n => some n
  | PyVal.pyFloat q => some (floatToInt q)
  | PyVal.pyStr s => strToInt s

def isAsciiCh (c : Char) : Bool := decide (c.toNat ≤ 127)

/-- The modelled inputs on which `int(...)` certainly raises `ValueError`:
ints, bools and finite floats always convert, and for strings the model is
exact on ASCII content, so a raise is asserted only there (a non-ASCII string
may still convert in CPython via Unicode digits or whitespace). -/
def pyIntRaises : PyVal → Bool
  | PyVal.pyStr s => (strToInt s).isNone && s.data.all isAsciiCh
  | _ => false

/-- `parse_expiry_days` (lines 214-227): `None` defaults to 7, the value must
convert with `int(...)` and lie in `[1, 365]`. -/
def parse_expiry_days (v : PyVal) : Except String Int :=
  match v with
  | PyVal.pyNone => Except.ok 7
  | _ =>
    match pyToInt v with
    | Option.none => Except.error "Invalid expiry_days value"
    | some n =>
      if n < 1 ∨ n > 365 then Except.error "Expiry time must be between 1 and 365 days"
      else Except.ok n

/-! ### The `urls` table and its SQL operations -/

structure URLRecord where
  org_url : String
  created_at : String
  expires_at : Option String
  click_count : Nat
  last_accessed : Option String
deriving DecidableEq, Repr

/-- The `urls` table: association list from the `id` column (short code) to the
rest of the row, in insertion order. -/
abbrev Store := List (String × URLRecord)

/-- `SELECT ... FROM urls WHERE id=?` + `fetchone()`. -/
def selectById (store : Store) (id : String) : Option URLRecord :=
  match store with
  | [] => Option.none
  | p :: rest => if p.1 = id then some p.2 else selectById rest id

/-- `SELECT id, expires_at FROM urls WHERE org_url=?` + `fetchone()`. -/
def selectByOrg (store : Store) (url : String) : Option (String × URLRecord) :=
  match store with
  | [] => Option.none
  | p :: rest => if p.2.org_url = url then some p else selectByOrg rest url

/-- `DELETE FROM urls WHERE id=?`. -/
def deleteById (store : Store) (id : String) : Store :=
  match store with
  | [] => []
  | p :: rest => if p.1 = id then deleteById rest id else p :: deleteById rest id

/-- `UPDATE urls SET ... WHERE id=?`, with `f` the per-row update. -/
def mapValAt (store : Store) (id : String) (f : URLRecord → URLRecord) : Store :=
  match store with
  | [] => []
  | p :: rest => (if p.1 = id then (p.1, f p.2) else p) :: mapValAt rest id f

def storeKeys (store : Store) : List String := store.map (fun p => p.1)

/-- The `id TEXT PRIMARY KEY` well-formedness invariant. -/
def nodupKeys (store : Store) : Prop := (storeKeys store).Nodup

/-! ### Short-code generation (`generate_unique_short_id`) -/

/-- One unit of time per microsecond; `timedelta(days=n)` adds `n` of these. -/
def usPerDay : Nat := 86400000000

/-- The retry loop of `generate_unique_short_id` (lines 180-189): `fuel`
checked attempts starting at draw index `i`; when all collide, one final
unchecked draw at `len + 1`. -/
def generate_unique_short_id_aux (store : Store) (draw : Nat → Nat → String) (len : Nat) :
    Nat → Nat → String
  | 0, i => draw i (len + 1)
  | fuel + 1, i =>
    let cand := draw i len
    if (selectById store cand).isSome then generate_unique_short_id_aux store draw len fuel (i + 1)
    else cand

/-- `generate_unique_short_id(conn, length=7)`: up to 10 collision-checked
draws at `len`, then one unchecked draw at `len + 1`. -/
def generate_unique_short_id (store : Store) (draw : Nat → Nat → String) (len : Nat) : String :=
  generate_unique_short_id_aux store draw len 10 0

/-! ### The `/shorten` route (`shorten_url`) -/

inductive ShortenResult
  | reused (short_id : String) (expires_at : String)
  | created (short_id : String) (expires_at : String)
  | validationError (msg : String)
deriving DecidableEq, Repr

/-- The expiry test shared by `shorten_url` (lines 291-302) and
`get_original_url` (lines 342-355): a missing stamp never expires, a
parseable stamp expires when strictly before `now`, an unparseable legacy
stamp counts as expired. -/
def expiryIsPast (now : Nat) (expires_at : Option String) : Bool :=
  match expires_at with
  | Option.none => false
  | some s =>
    match parseTs s with
    | some t => decide (t < now)
    | Option.none => true

/-- The fresh-allocation tail of `shorten_url` (lines 312-323). -/
def shortenFresh (store : Store) (now : Nat) (draw : Nat → Nat → String)
    (org_url expiry_date : String) : ShortenResult × Store :=
  let short_id := generate_unique_short_id store draw 7
  (ShortenResult.created short_id expiry_date,
   store ++ [(short_id,
     { org_url := org_url, created_at := fmtTs now, expires_at := some expiry_date,
       click_count := 0, last_accessed := Option.none })])

/-- `shorten_url` (lines 262-323).  `draw` supplies the random candidates,
`now` is `datetime.now()`.  The HTTP layer (rate limit, JSON decoding,
`request.host_url` prefixing) stays outside; the result carries the short id
and the expiry stamp the route returns. -/
def shorten_url (store : Store) (now : Nat) (draw : Nat → Nat → String)
    (org_url_raw : Option String) (expiry_days_raw : Option PyVal) :
    ShortenResult × Store :=
  match normalize_url org_url_raw with
  | Except.error e => (ShortenResult.validationError e, store)
  | Except.ok org_url =>
    match parse_expiry_days (expiry_days_raw.getD (PyVal.pyInt 7)) with
    | Except.error e => (ShortenResult.validationError e, store)
    | Except.ok d =>
      let expiry_date := fmtTs (now + d.toNat * usPerDay)
      match selectByOrg store org_url with
      | Option.none => shortenFresh store now draw org_url expiry_date
      | some p =>
        if expiryIsPast now p.2.expires_at then
          shortenFresh (deleteById store p.1) now draw org_url expiry_date
        else
          (ShortenResult.reused p.1 expiry_date,
           mapValAt store p.1 (fun r => { r with expires_at := some expiry_date }))

/-! ### The redirect route (`get_original_url`) and `info` -/

inductive ResolveResult
  | redirect (url : String)
  | notFound
  | expired
deriving DecidableEq, Repr

/-- `get_original_url` (lines 326-368): look up, apply the expiry policy
(deleting an expired or legacy row), and on success bump `click_count` and
set `last_accessed` before redirecting. -/
def get_original_url (store : Store) (now : Nat) (short_id : String) :
    ResolveResult × Store :=
  match selectById store short_id with
  | Option.none => (ResolveResult.notFound, store)
  | some row =>
    if expiryIsPast now row.expires_at then
      (ResolveResult.expired, deleteById store short_id)
    else
      (ResolveResult.redirect row.org_url,
       mapValAt store short_id (fun r =>
         { r with click_count := r.click_count + 1, last_accessed := some (fmtTs now) }))

/-- `info` (lines 371-395): a plain `SELECT` of the whole row; the store is
returned unchanged to witness that the route performs no write. -/
def info (store : Store) (short_id : String) : Option URLRecord × Store :=
  (selectById store short_id, store)

/-! ### Expiry reaper (`cleanup_expired_urls_forever`, one cycle) -/

/-- One cycle of `cleanup_expired_urls_forever` (lines 231-250):
`DELETE FROM urls WHERE expires_at IS NOT NULL AND expires_at < now_str`,
where the comparison is SQLite TEXT (byte-wise) comparison against
`strftime("%Y-%m-%d %H:%M:%S.%f")` of the current time. -/
def cleanup_expired_step (now : Nat) (store : Store) : Store :=
  store.filter (fun p =>
    match p.2.expires_at with
    | Option.none => true
    | some s => !(sqlTextLt s (fmtTs now)))

/-! ### Rate limiter (`rate_limit_guard`, `before_every_request`) -/

def RATE_LIMIT : Nat := 30

def RATE_WINDOW_SEC : Int := 60

/-- The `while q and now - q[0] > RATE_WINDOW_SEC: q.popleft()` loop. -/
def pruneOld (now : Int) (q : List Int) : List Int :=
  match q with
  | [] => []
  | t :: rest => if now - t > RATE_WINDOW_SEC then pruneOld now rest else t :: rest

/-- `rate_limit_guard` (lines 92-105) acting on one client's deque: prune old
stamps from the front, reject when the window is full, otherwise append `now`
and admit.  The Bool is `true` when the request is admitted. -/
def rate_limit_guard (now : Int) (q : List Int) : Bool × List Int :=
  let q2 := pruneOld now q
  if RATE_LIMIT ≤ q2.length then (false, q2) else (true, q2 ++ [now])

/-- `before_every_request` (lines 108-113): the guard runs only for
`POST /shorten`. -/
def before_every_request (path method : String) : Bool :=
  path == "/shorten" && method == "POST"

/-- A sequence of guard decisions for one client, threading the deque. -/
def runRateCalls : List Int → List Int → List Bool × List Int
  | [], q => ([], q)
  | t :: rest, q =>
    let r := rate_limit_guard t q
    let tail := runRateCalls rest r.2
    (r.1 :: tail.1, tail.2)

/-- A sequence of resolutions of one code, threading the store. -/
def resolveSeq (code : String) : Store → List Nat → List ResolveResult × Store
  | store, [] => ([], store)
  | store, t :: ts =>
    let r := get_original_url store t code
    let tail := resolveSeq code r.2 ts
    (r.1 :: tail.1, tail.2)

/-! ### Store lemmas -/

theorem selectById_deleteById_self (store : Store) (id : String) :
    selectById (deleteById store id) id = Option.none := by
  induction store with
  | nil => rfl
  | cons p rest ih =>
    by_cases h : p.1 = id
    · simp [deleteById, h, ih]
    · simp [deleteById, selectById, h, ih]

theorem selectById_deleteById_none (store : Store) (id c : String)
    (h : selectById store c = Option.none) :
    selectById (deleteById store id) c = Option.none := by
  induction store with
  | nil => rfl
  | cons p rest ih =>
    by_cases hp : p.1 = c
    · simp [selectById, hp] at h
    · simp only [selectById, hp, if_neg] at h
      by_cases hq : p.1 = id
      · simp [deleteById, hq, ih h]
      · simp [deleteById, selectById, hq, hp, ih h]

theorem selectById_mapValAt_self (store : Store) (id : String) (f : URLRecord → URLRecord) :
    selectById (mapValAt store id f) id = (selectById store id).map f := by
  induction store with
  | nil => rfl
  | cons p rest ih =>
    by_cases h : p.1 = id
    · simp [mapValAt, selectById, h]
    · simp [mapValAt, selectById, h, ih]

theorem selectById_append_none (store l : Store) (id : String)
    (h : selectById store id = Option.none) :
    selectById (store ++ l) id = selectById l id := by
  induction store with
  | nil => rfl
  | cons p rest ih =>
    by_cases hp : p.1 = id
    · simp [selectById, hp] at h
    · simp only [selectById, hp, if_neg] at h
      simp [selectById, hp, ih h]

theorem selectById_append_some (store l : Store) (id : String) (r : URLRecord)
    (h : selectById store id = some r) :
    selectById (store ++ l) id = some r := by
  induction store with
  | nil => simp [selectById] at h
  | cons p rest ih =>
    by_cases hp : p.1 = id
    · simp [selectById, hp] at h
      simp [selectById, hp, h]
    · simp only [selectById, hp, if_neg] at h
      simp [selectById, hp, ih h]

theorem mem_storeKeys_of_mem {store : Store} {id : String} {r : URLRecord}
    (h : (id, r) ∈ store) : id ∈ storeKeys store := by
  have := List.mem_map_of_mem (fun p : String × URLRecord => p.1) h
  simpa [storeKeys] using this

theorem selectById_of_mem_nodup (store : Store) (id : String) (r : URLRecord)
    (hnd : nodupKeys store) (hmem : (id, r) ∈ store) :
    selectById store id = some r := by
  induction store with
  | nil => simp at hmem
  | cons q rest ih =>
    have hnd' : q.1 ∉ storeKeys rest ∧ (storeKeys rest).Nodup := by
      simpa [nodupKeys, storeKeys, List.nodup_cons] using hnd
    rcases List.mem_cons.1 hmem with heq | hmem'
    · rw [← heq]
      simp [selectById]
    · have hid : id ∈ storeKeys rest := mem_storeKeys_of_mem hmem'
      have hne : q.1 ≠ id := fun h => hnd'.1 (h ▸ hid)
      simp only [selectById, hne, if_neg]
      exact ih hnd'.2 hmem'

theorem selectByOrg_mem {store : Store} {u : String} {p : String × URLRecord}
    (h : selectByOrg store u = some p) : p ∈ store ∧ p.2.org_url = u := by
  induction store with
  | nil => simp [selectByOrg] at h
  | cons q rest ih =>
    by_cases hq : q.2.org_url = u
    · simp only [selectByOrg, hq, if_pos, Option.some.injEq] at h
      subst h
      exact ⟨List.mem_cons_self _ _, hq⟩
    · simp only [selectByOrg, hq, if_neg] at h
      obtain ⟨h1, h2⟩ := ih h
      exact ⟨List.mem_cons_of_mem _ h1, h2⟩

theorem selectByOrg_mapValAt (store : Store) (id : String) (f : URLRecord → URLRecord)
    (hf : ∀ r, (f r).org_url = r.org_url) (u : String) :
    selectByOrg (mapValAt store id f) u =
      (selectByOrg store u).map (fun p => if p.1 = id then (p.1, f p.2) else p) := by
  induction store with
  | nil => rfl
  | cons p rest ih =>
    by_cases hp : p.1 = id
    · by_cases ho : p.2.org_url = u
      · simp [mapValAt, selectByOrg, hp, hf, ho]
      · simp [mapValAt, selectByOrg, hp, hf, ho, ih]
    · by_cases ho : p.2.org_url = u
      · simp [mapValAt, selectByOrg, hp, ho]
      · simp [mapValAt, selectByOrg, hp, ho, ih]

/-! ### Generator lemmas -/

theorem genAux_fresh (store : Store) (draw : Nat → Nat → String) (len : Nat) :
    ∀ fuel i0, (∃ j, j < fuel ∧ selectById store (draw (i0 + j) len) = Option.none) →
      selectById store (generate_unique_short_id_aux store draw len fuel i0) =
        Option.none := by
  intro fuel
  induction fuel with
  | zero =>
    intro i0 h
    obtain ⟨j, hj, _⟩ := h
    omega
  | succ fuel ih =>
    intro i0 h
    cases hc : selectById store (draw i0 len) with
    | none =>
      simp [generate_unique_short_id_aux, hc]
    | some r =>
      simp only [generate_unique_short_id_aux, hc, Option.isSome_some, if_pos]
      apply ih
      obtain ⟨j, hj, hnone⟩ := h
      cases j with
      | zero =>
        rw [Nat.add_zero] at hnone
        rw [hnone] at hc
        exact absurd hc (by simp)
      | succ j =>
        refine ⟨j, by omega, ?_⟩
        have : i0 + 1 + j = i0 + (j + 1) := by omega
        rw [this]
        exact hnone

theorem genAux_all_collide (store : Store) (draw : Nat → Nat → String) (len : Nat) :
    ∀ fuel i0, (∀ j, j < fuel → (selectById store (draw (i0 + j) len)).isSome = true) →
      generate_unique_short_id_aux store draw len fuel i0 = draw (i0 + fuel) (len + 1) := by
  intro fuel
  induction fuel with
  | zero =>
    intro i0 h
    simp [generate_unique_short_id_aux]
  | succ fuel ih =>
    intro i0 h
    have h0 := h 0 (by omega)
    rw [Nat.add_zero] at h0
    simp only [generate_unique_short_id_aux, h0, if_pos]
    have := ih (i0 + 1) (fun j hj => by
      have := h (j + 1) (by omega)
      have harr : i0 + (j + 1) = i0 + 1 + j := by omega
      rw [harr] at this
      exact this)
    rw [this]
    congr 1
    omega

theorem generate_unique_short_id_fresh (store : Store) (draw : Nat → Nat → String)
    (len : Nat) (h : ∃ i, i < 10 ∧ selectById store (draw i len) = Option.none) :
    selectById store (generate_unique_short_id store draw len) = Option.none := by
  apply genAux_fresh store draw len 10 0
  simpa using h

/-! ### Normalization lemmas -/

theorem normalize_url_eval (s0 : String) (hne : pyStrip s0 ≠ "") :
    normalize_url (some s0) =
      match urlparseSN (withDefaultScheme (pyStrip s0)) with
      | Except.error e => Except.error e
      | Except.ok pr =>
        if pr.scheme = "http" ∨ pr.scheme = "https" then
          if pr.netloc = "" then Except.error "Invalid URL host"
          else Except.ok (withDefaultScheme (pyStrip s0))
        else Except.error "Only http/https URLs are allowed" := by
  simp only [normalize_url]
  rw [if_neg hne]

theorem normalize_url_of_scheme (u : String) (htrim : pyStrip u = u)
    (hsch : hasHttpScheme u = true) (v : String)
    (hok : normalize_url (some u) = Except.ok v) :
    normalize_url (some u) = Except.ok u := by
  have hne : pyStrip u ≠ "" := by
    rw [htrim]
    rintro rfl
    exact absurd hsch (by decide)
  have hd : withDefaultScheme (pyStrip u) = u := by
    rw [htrim]
    unfold withDefaultScheme
    rw [if_pos hsch]
  have he := normalize_url_eval u hne
  rw [hd] at he
  rw [he] at hok ⊢
  cases hp : urlparseSN u with
  | error e =>
    rw [hp] at hok
    exact absurd hok (by simp)
  | ok pr =>
    rw [hp] at hok
    dsimp only at hok ⊢
    by_cases h1 : pr.scheme = "http" ∨ pr.scheme = "https"
    · rw [if_pos h1] at hok ⊢
      by_cases h2 : pr.netloc = ""
      · rw [if_pos h2] at hok
        exact absurd hok (by simp)
      · rw [if_neg h2]
    · rw [if_neg h1] at hok
      exact absurd hok (by simp)

/-- C4: `shorten`'s URL normalization trims surrounding whitespace and fails
with a validation error when the result is empty; a trimmed input without an
`http://`/`https://` prefix is processed as if prefixed with `https://`; after
parsing, normalization succeeds exactly when the parsed scheme is `http` or
`https` and the host is non-empty, returning the (possibly prefixed) trimmed
URL. -/
theorem spec_C4 :
    (normalize_url Option.none = Except.error "URL is required") ∧
    (∀ s : String, pyStrip s = "" → normalize_url (some s) = Except.error "URL is required") ∧
    (∀ s u : String, normalize_url (some s) = Except.ok u →
      u = withDefaultScheme (pyStrip s) ∧
      (hasHttpScheme (pyStrip s) = false → u = "https://" ++ pyStrip s)) ∧
    (∀ s u : String, normalize_url (some s) = Except.ok u →
      ∃ pr : UrlParts, urlparseSN u = Except.ok pr ∧
        (pr.scheme = "http" ∨ pr.scheme = "https") ∧ pr.netloc ≠ "") ∧
    (∀ s : String, pyStrip s ≠ "" →
      (∃ pr : UrlParts, urlparseSN (withDefaultScheme (pyStrip s)) = Except.ok pr ∧
        (pr.scheme = "http" ∨ pr.scheme = "https") ∧ pr.netloc ≠ "") →
      normalize_url (some s) = Except.ok (withDefaultScheme (pyStrip s))) := by
  have key : ∀ s u : String, normalize_url (some s) = Except.ok u →
      u = withDefaultScheme (pyStrip s) ∧
      ∃ pr : UrlParts, urlparseSN (withDefaultScheme (pyStrip s)) = Except.ok pr ∧
        (pr.scheme = "http" ∨ pr.scheme = "https") ∧ pr.netloc ≠ "" := by
    intro s u hok
    by_cases hne : pyStrip s = ""
    · rw [show normalize_url (some s) = Except.error "URL is required" by
        simp only [normalize_url]; rw [if_pos hne]] at hok
      exact absurd hok (by simp)
    · rw [normalize_url_eval s hne] at hok
      cases hp : urlparseSN (withDefaultScheme (pyStrip s)) with
      | error e =>
        rw [hp] at hok
        exact absurd hok (by simp)
      | ok pr =>
        rw [hp] at hok
        dsimp only at hok
        by_cases h1 : pr.scheme = "http" ∨ pr.scheme = "https"
        · rw [if_pos h1] at hok
          by_cases h2 : pr.netloc = ""
          · rw [if_pos h2] at hok
            exact absurd hok (by simp)
          · rw [if_neg h2] at hok
            have hu : u = withDefaultScheme (pyStrip s) := by
              injection hok with h
              exact h.symm
            exact ⟨hu, pr, rfl, h1, h2⟩
        · rw [if_neg h1] at hok
          exact absurd hok (by simp)
  refine ⟨rfl, ?_, ?_, ?_, ?_⟩
  · intro s h
    simp only [normalize_url]
    rw [if_pos h]
  · intro s u hok
    refine ⟨(key s u hok).1, fun hns => ?_⟩
    rw [(key s u hok).1]
    unfold withDefaultScheme
    rw [if_neg (by rw [hns]; exact Bool.false_ne_true)]
  · intro s u hok
    obtain ⟨hu, pr, hpr, h1, h2⟩ := key s u hok
    exact ⟨pr, by rw [hu]; exact hpr, h1, h2⟩
  · intro s hne hex
    obtain ⟨pr, hpr, h1, h2⟩ := hex
    rw [normalize_url_eval s hne, hpr]
    dsimp only
    rw [if_pos h1, if_neg h2]

/-- Witness for C4 at concrete inputs: `"  www.google.com "` normalizes to the
trimmed, `https://`-prefixed URL, and an all-whitespace input is rejected. -/
theorem spec_C4_witness :
    normalize_url (some "  www.google.com ") =
      Except.ok (withDefaultScheme (pyStrip "  www.google.com ")) ∧
    normalize_url (some "   ") = Except.error "URL is required" :=
  ⟨spec_C4.2.2.2.2 "  www.google.com " (by decide)
      ⟨⟨"https", "www.google.com"⟩, rfl, Or.inr rfl, by decide⟩,
    spec_C4.2.1 "   " (by decide)⟩

instance {ε α : Type} [DecidableEq ε] [DecidableEq α] : DecidableEq (Except ε α) :=
  fun a b =>
    match a, b with
    | Except.error e, Except.error f =>
      if h : e = f then isTrue (by rw [h]) else
        isFalse (fun hc => h (by injection hc))
    | Except.error _, Except.ok _ => isFalse (fun hc => Except.noConfusion hc)
    | Except.ok _, Except.error _ => isFalse (fun hc => Except.noConfusion hc)
    | Except.ok x, Except.ok y =>
      if h : x = y then isTrue (by rw [h]) else
        isFalse (fun hc => h (by injection hc))

/-! ### Expiry lemmas -/

theorem expiryIsPast_some_live (now T : Nat) (s : String)
    (hp : parseTs s = some T) (hT : ¬ T < now) :
    expiryIsPast now (some s) = false := by
  simp [expiryIsPast, hp, hT]

theorem expiryIsPast_fmt_future (now d : Nat) (hb : now + d < 10 ^ 20) :
    expiryIsPast now (some (fmtTs (now + d))) = false :=
  expiryIsPast_some_live now (now + d) (fmtTs (now + d)) (parseTs_fmtTs _ hb) (by omega)

theorem expiryIsPast_some_past (now T : Nat) (s : String)
    (hp : parseTs s = some T) (hT : T < now) :
    expiryIsPast now (some s) = true := by
  simp [expiryIsPast, hp, hT]

theorem expiryIsPast_legacy (now : Nat) (s : String) (hp : parseTs s = Option.none) :
    expiryIsPast now (some s) = true := by
  simp [expiryIsPast, hp]

/-- Evaluation of `get_original_url` on a found, live row. -/
theorem get_original_url_of_found (store : Store) (now : Nat) (code : String)
    (row : URLRecord) (hsel : selectById store code = some row)
    (hlive : expiryIsPast now row.expires_at = false) :
    get_original_url store now code =
      (ResolveResult.redirect row.org_url,
       mapValAt store code (fun r =>
         { r with click_count := r.click_count + 1, last_accessed := some (fmtTs now) })) := by
  unfold get_original_url
  rw [hsel]
  dsimp only
  rw [if_neg (by rw [hlive]; exact Bool.false_ne_true)]

/-- Evaluation of `get_original_url` on a found, expired (or legacy) row. -/
theorem get_original_url_of_expired (store : Store) (now : Nat) (code : String)
    (row : URLRecord) (hsel : selectById store code = some row)
    (hpast : expiryIsPast now row.expires_at = true) :
    get_original_url store now code = (ResolveResult.expired, deleteById store code) := by
  unfold get_original_url
  rw [hsel]
  dsimp only
  rw [if_pos hpast]

/-- Evaluation of `get_original_url` on a missing code. -/
theorem get_original_url_of_missing (store : Store) (now : Nat) (code : String)
    (h : selectById store code = Option.none) :
    get_original_url store now code = (ResolveResult.notFound, store) := by
  unfold get_original_url
  rw [h]

/-- After a fresh allocation, resolving its code on any instant at which the
stored stamp is not yet past redirects to the stored target URL. -/
theorem shortenFresh_resolve (store : Store) (now now2 : Nat)
    (draw : Nat → Nat → String) (u ed : String)
    (hlive : expiryIsPast now2 (some ed) = false)
    (hfresh : selectById store (generate_unique_short_id store draw 7) = Option.none) :
    (get_original_url (shortenFresh store now draw u ed).2 now2
        (generate_unique_short_id store draw 7)).1 = ResolveResult.redirect u := by
  unfold shortenFresh get_original_url
  dsimp only
  rw [selectById_append_none _ _ _ hfresh]
  simp [selectById, hlive]

/-- C1: for a valid absolute `http(s)` URL (already trimmed, already carrying
its scheme), `shorten` stores the URL unchanged by normalization and an
immediate resolve of the returned code redirects to exactly that URL.  The
freshness hypothesis says one of the generator's ten checked candidates is
free, i.e. allocation exits through the collision-checked path. -/
theorem spec_C1 (store : Store) (now : Nat) (draw : Nat → Nat → String) (u : String)
    (hnd : nodupKeys store)
    (htrim : pyStrip u = u)
    (hsch : hasHttpScheme u = true)
    (hok : ∃ v, normalize_url (some u) = Except.ok v)
    (hbound : now + 7 * usPerDay < 10 ^ 20)
    (hfresh : ∃ i, i < 10 ∧ selectById store (draw i 7) = Option.none) :
    normalize_url (some u) = Except.ok u ∧
    ∃ c,
      ((shorten_url store now draw (some u) Option.none).1 =
          ShortenResult.reused c (fmtTs (now + 7 * usPerDay)) ∨
        (shorten_url store now draw (some u) Option.none).1 =
          ShortenResult.created c (fmtTs (now + 7 * usPerDay))) ∧
      (get_original_url (shorten_url store now draw (some u) Option.none).2 now c).1 =
        ResolveResult.redirect u := by
  obtain ⟨v, hv⟩ := hok
  have hnorm := normalize_url_of_scheme u htrim hsch v hv
  refine ⟨hnorm, ?_⟩
  have hp7 : parse_expiry_days (PyVal.pyInt 7) = Except.ok 7 := rfl
  have h7 : (7 : Int).toNat = 7 := rfl
  have hlive : expiryIsPast now (some (fmtTs (now + 7 * usPerDay))) = false :=
    expiryIsPast_fmt_future now (7 * usPerDay) hbound
  have hsh : shorten_url store now draw (some u) Option.none =
      (match selectByOrg store u with
       | Option.none => shortenFresh store now draw u (fmtTs (now + 7 * usPerDay))
       | some p =>
         if expiryIsPast now p.2.expires_at then
           shortenFresh (deleteById store p.1) now draw u (fmtTs (now + 7 * usPerDay))
         else
           (ShortenResult.reused p.1 (fmtTs (now + 7 * usPerDay)),
            mapValAt store p.1
              (fun r => { r with expires_at := some (fmtTs (now + 7 * usPerDay)) }))) := by
    simp only [shorten_url, hnorm, Option.getD_none, hp7, h7]
  rw [hsh]
  cases hsel : selectByOrg store u with
  | none =>
    dsimp only
    refine ⟨generate_unique_short_id store draw 7, Or.inr rfl, ?_⟩
    exact shortenFresh_resolve store now now draw u _ hlive
      (generate_unique_short_id_fresh store draw 7 hfresh)
  | some p =>
    dsimp only
    by_cases hex : expiryIsPast now p.2.expires_at = true
    · rw [if_pos hex]
      refine ⟨generate_unique_short_id (deleteById store p.1) draw 7, Or.inr rfl, ?_⟩
      apply shortenFresh_resolve _ now now draw u _ hlive
      apply generate_unique_short_id_fresh
      obtain ⟨i, hi, hni⟩ := hfresh
      exact ⟨i, hi, selectById_deleteById_none store p.1 _ hni⟩
    · rw [if_neg hex]
      refine ⟨p.1, Or.inl rfl, ?_⟩
      obtain ⟨hmem, horg⟩ := selectByOrg_mem hsel
      have hmem' : (p.1, p.2) ∈ store := by rw [Prod.mk.eta]; exact hmem
      have hself : selectById store p.1 = some p.2 :=
        selectById_of_mem_nodup store p.1 p.2 hnd hmem'
      have hupd : selectById
          (mapValAt store p.1
            (fun r => { r with expires_at := some (fmtTs (now + 7 * usPerDay)) })) p.1 =
          some { p.2 with expires_at := some (fmtTs (now + 7 * usPerDay)) } := by
        rw [selectById_mapValAt_self, hself]
        rfl
      rw [get_original_url_of_found _ now p.1 _ hupd hlive]
      dsimp only
      rw [horg]

/-- Witness for C1: an empty store, clock 0, a constant candidate oracle, and
the URL `https://example.com`. -/
theorem spec_C1_witness :
    normalize_url (some "https://example.com") = Except.ok "https://example.com" ∧
    ∃ c,
      ((shorten_url [] 0 (fun _ _ => "aaaaaaa") (some "https://example.com") Option.none).1 =
          ShortenResult.reused c (fmtTs (0 + 7 * usPerDay)) ∨
        (shorten_url [] 0 (fun _ _ => "aaaaaaa") (some "https://example.com") Option.none).1 =
          ShortenResult.created c (fmtTs (0 + 7 * usPerDay))) ∧
      (get_original_url
          (shorten_url [] 0 (fun _ _ => "aaaaaaa") (some "https://example.com") Option.none).2 0
          c).1 = ResolveResult.redirect "https://example.com" :=
  spec_C1 [] 0 (fun _ _ => "aaaaaaa") "https://example.com"
    (by simp [nodupKeys, storeKeys]) (by decide) (by decide)
    ⟨"https://example.com", by decide⟩ (by decide) ⟨0, by omega, rfl⟩

/-- A concrete row used by the witnesses below. -/
def sampleRec (e : Option String) : URLRecord :=
  { org_url := "https://a.example", created_at := fmtTs 0, expires_at := e,
    click_count := 0, last_accessed := Option.none }

/-- C2: a stored record whose `expires_at` is in the past (or unparseable) is
never returned by resolve: the first attempt deletes the row and reports
"expired", and a second attempt on the same code reports "not found" and
leaves the store unchanged. -/
theorem spec_C2 (store : Store) (now now2 : Nat) (code : String) (row : URLRecord)
    (s : String)
    (hsel : selectById store code = some row)
    (hexp : row.expires_at = some s)
    (hpast : (∃ t, parseTs s = some t ∧ t < now) ∨ parseTs s = Option.none) :
    (get_original_url store now code).1 = ResolveResult.expired ∧
    selectById (get_original_url store now code).2 code = Option.none ∧
    get_original_url (get_original_url store now code).2 now2 code =
      (ResolveResult.notFound, (get_original_url store now code).2) := by
  have hpb : expiryIsPast now row.expires_at = true := by
    rw [hexp]
    rcases hpast with ⟨t, hp, ht⟩ | hp
    · exact expiryIsPast_some_past now t s hp ht
    · exact expiryIsPast_legacy now s hp
  rw [get_original_url_of_expired store now code row hsel hpb]
  dsimp only
  have h2 : selectById (deleteById store code) code = Option.none :=
    selectById_deleteById_self store code
  exact ⟨rfl, h2, get_original_url_of_missing _ now2 code h2⟩

/-- Witness for C2: one row with an unparseable legacy stamp. -/
theorem spec_C2_witness :
    (get_original_url [("abcdefg", sampleRec (some "legacy"))] 5 "abcdefg").1 =
        ResolveResult.expired ∧
    selectById (get_original_url [("abcdefg", sampleRec (some "legacy"))] 5 "abcdefg").2
        "abcdefg" = Option.none ∧
    get_original_url
        (get_original_url [("abcdefg", sampleRec (some "legacy"))] 5 "abcdefg").2 6
        "abcdefg" =
      (ResolveResult.notFound,
        (get_original_url [("abcdefg", sampleRec (some "legacy"))] 5 "abcdefg").2) :=
  spec_C2 _ 5 6 "abcdefg" (sampleRec (some "legacy")) "legacy" rfl rfl
    (Or.inr (by decide))

/-- C10: `info` returns the full stored row and never mutates the store, even
when the row is already expired or carries an unparseable legacy stamp; the
expiry policy that `get_original_url` would apply on the same store (deleting
the row, reporting "expired") is not applied by `info`. -/
theorem spec_C10 (store : Store) (code : String) (row : URLRecord) (now : Nat)
    (hsel : selectById store code = some row)
    (hpast : ∃ s, row.expires_at = some s ∧
      (parseTs s = Option.none ∨ ∃ t, parseTs s = some t ∧ t < now)) :
    info store code = (some row, store) ∧
    (get_original_url store now code).1 = ResolveResult.expired := by
  obtain ⟨s, hs, hp⟩ := hpast
  have hpb : expiryIsPast now row.expires_at = true := by
    rw [hs]
    rcases hp with hp | ⟨t, hp, ht⟩
    · exact expiryIsPast_legacy now s hp
    · exact expiryIsPast_some_past now t s hp ht
  constructor
  · unfold info
    rw [hsel]
  · rw [get_original_url_of_expired store now code row hsel hpb]

/-- Witness for C10: an expired-but-unreaped legacy row is still fully visible
through `info`. -/
theorem spec_C10_witness :
    info [("abcdefg", sampleRec (some "legacy"))] "abcdefg" =
      (some (sampleRec (some "legacy")), [("abcdefg", sampleRec (some "legacy"))]) ∧
    (get_original_url [("abcdefg", sampleRec (some "legacy"))] 5 "abcdefg").1 =
      ResolveResult.expired :=
  spec_C10 _ "abcdefg" (sampleRec (some "legacy")) 5 rfl
    ⟨"legacy", rfl, Or.inl (by decide)⟩

/-! ### Evaluation lemmas for `shorten_url` -/

theorem shorten_url_eval (store : Store) (now : Nat) (draw : Nat → Nat → String)
    (urlRaw : Option String) (dv : Option PyVal) (u : String) (d : Int)
    (hn : normalize_url urlRaw = Except.ok u)
    (hpd : parse_expiry_days (dv.getD (PyVal.pyInt 7)) = Except.ok d) :
    shorten_url store now draw urlRaw dv =
      (match selectByOrg store u with
       | Option.none => shortenFresh store now draw u (fmtTs (now + d.toNat * usPerDay))
       | some p =>
         if expiryIsPast now p.2.expires_at then
           shortenFresh (deleteById store p.1) now draw u (fmtTs (now + d.toNat * usPerDay))
         else
           (ShortenResult.reused p.1 (fmtTs (now + d.toNat * usPerDay)),
            mapValAt store p.1
              (fun r => { r with expires_at := some (fmtTs (now + d.toNat * usPerDay)) }))) := by
  simp only [shorten_url, hn, hpd]

theorem shorten_url_err_url (store : Store) (now : Nat) (draw : Nat → Nat → String)
    (urlRaw : Option String) (dv : Option PyVal) (e : String)
    (hn : normalize_url urlRaw = Except.error e) :
    shorten_url store now draw urlRaw dv = (ShortenResult.validationError e, store) := by
  simp [shorten_url, hn]

theorem shorten_url_err_days (store : Store) (now : Nat) (draw : Nat → Nat → String)
    (urlRaw : Option String) (dv : Option PyVal) (u m : String)
    (hn : normalize_url urlRaw = Except.ok u)
    (hpd : parse_expiry_days (dv.getD (PyVal.pyInt 7)) = Except.error m) :
    shorten_url store now draw urlRaw dv = (ShortenResult.validationError m, store) := by
  simp [shorten_url, hn, hpd]

theorem parse_expiry_days_int (d : Int) (hd : 1 ≤ d ∧ d ≤ 365) :
    parse_expiry_days (PyVal.pyInt d) = Except.ok d := by
  show (if d < 1 ∨ d > 365 then
      Except.error "Expiry time must be between 1 and 365 days"
    else Except.ok d) = Except.ok d
  rw [if_neg (by omega)]

/-- C3: calling `shorten` again while the record for the same target URL is
still live returns the same code both times, and the stored `expires_at`
afterwards is exactly the stamp computed from the second call's clock and TTL
(replacing, not accumulating, the remaining TTL). -/
theorem spec_C3 (store : Store) (draw1 draw2 : Nat → Nat → String) (now1 now2 : Nat)
    (raw u sid : String) (row : URLRecord) (s : String) (t : Nat) (d1 d2 : Int)
    (hnd : nodupKeys store)
    (hnorm : normalize_url (some raw) = Except.ok u)
    (hfound : selectByOrg store u = some (sid, row))
    (hexp : row.expires_at = some s)
    (hparse : parseTs s = some t)
    (hlive1 : ¬ t < now1)
    (hd1 : 1 ≤ d1 ∧ d1 ≤ 365) (hd2 : 1 ≤ d2 ∧ d2 ≤ 365)
    (hb1 : now1 + d1.toNat * usPerDay < 10 ^ 20)
    (hlive2 : ¬ now1 + d1.toNat * usPerDay < now2) :
    (shorten_url store now1 draw1 (some raw) (some (PyVal.pyInt d1))).1 =
      ShortenResult.reused sid (fmtTs (now1 + d1.toNat * usPerDay)) ∧
    (shorten_url (shorten_url store now1 draw1 (some raw) (some (PyVal.pyInt d1))).2
        now2 draw2 (some raw) (some (PyVal.pyInt d2))).1 =
      ShortenResult.reused sid (fmtTs (now2 + d2.toNat * usPerDay)) ∧
    selectById
        (shorten_url (shorten_url store now1 draw1 (some raw) (some (PyVal.pyInt d1))).2
          now2 draw2 (some raw) (some (PyVal.pyInt d2))).2 sid =
      some { row with expires_at := some (fmtTs (now2 + d2.toNat * usPerDay)) } := by
  have hpd1 : parse_expiry_days ((some (PyVal.pyInt d1)).getD (PyVal.pyInt 7)) =
      Except.ok d1 := parse_expiry_days_int d1 hd1
  have hpd2 : parse_expiry_days ((some (PyVal.pyInt d2)).getD (PyVal.pyInt 7)) =
      Except.ok d2 := parse_expiry_days_int d2 hd2
  have hpb1 : expiryIsPast now1 row.expires_at = false := by
    rw [hexp]
    exact expiryIsPast_some_live _ t s hparse hlive1
  have hsh1 : shorten_url store now1 draw1 (some raw) (some (PyVal.pyInt d1)) =
      (ShortenResult.reused sid (fmtTs (now1 + d1.toNat * usPerDay)),
       mapValAt store sid
         (fun r => { r with expires_at := some (fmtTs (now1 + d1.toNat * usPerDay)) })) := by
    rw [shorten_url_eval store now1 draw1 _ _ u d1 hnorm hpd1, hfound]
    dsimp only
    rw [if_neg (by rw [hpb1]; exact Bool.false_ne_true)]
  have horg : row.org_url = u := (selectByOrg_mem hfound).2
  have hfound2 : selectByOrg
      (mapValAt store sid
        (fun r => { r with expires_at := some (fmtTs (now1 + d1.toNat * usPerDay)) })) u =
      some (sid, { row with expires_at := some (fmtTs (now1 + d1.toNat * usPerDay)) }) := by
    rw [selectByOrg_mapValAt store sid
      (fun r => { r with expires_at := some (fmtTs (now1 + d1.toNat * usPerDay)) })
      (fun r => rfl) u, hfound]
    simp
  have hparse2 : parseTs (fmtTs (now1 + d1.toNat * usPerDay)) =
      some (now1 + d1.toNat * usPerDay) := parseTs_fmtTs _ hb1
  have hpb2 : expiryIsPast now2 (some (fmtTs (now1 + d1.toNat * usPerDay))) = false :=
    expiryIsPast_some_live _ _ _ hparse2 hlive2
  have hsh2 : shorten_url
      (mapValAt store sid
        (fun r => { r with expires_at := some (fmtTs (now1 + d1.toNat * usPerDay)) }))
      now2 draw2 (some raw) (some (PyVal.pyInt d2)) =
      (ShortenResult.reused sid (fmtTs (now2 + d2.toNat * usPerDay)),
       mapValAt
         (mapValAt store sid
           (fun r => { r with expires_at := some (fmtTs (now1 + d1.toNat * usPerDay)) }))
         sid (fun r => { r with expires_at := some (fmtTs (now2 + d2.toNat * usPerDay)) })) := by
    rw [shorten_url_eval _ now2 draw2 _ _ u d2 hnorm hpd2, hfound2]
    dsimp only
    rw [if_neg (by rw [hpb2]; exact Bool.false_ne_true)]
  have hself : selectById store sid = some row :=
    selectById_of_mem_nodup store sid row hnd ((selectByOrg_mem hfound).1)
  refine ⟨by rw [hsh1], ?_, ?_⟩
  · rw [hsh1]
    dsimp only
    rw [hsh2]
  · rw [hsh1]
    dsimp only
    rw [hsh2]
    dsimp only
    rw [selectById_mapValAt_self, selectById_mapValAt_self, hself]
    rfl

/-- Witness for C3: a live row for `https://a.example`, shortened again with a
different TTL. -/
theorem spec_C3_witness :
    (shorten_url [("abcdefg", sampleRec (some (fmtTs (10 * usPerDay))))] 0
        (fun _ _ => "x") (some "https://a.example") (some (PyVal.pyInt 2))).1 =
      ShortenResult.reused "abcdefg" (fmtTs (0 + (2 : Int).toNat * usPerDay)) ∧
    (shorten_url
        (shorten_url [("abcdefg", sampleRec (some (fmtTs (10 * usPerDay))))] 0
          (fun _ _ => "x") (some "https://a.example") (some (PyVal.pyInt 2))).2 5
        (fun _ _ => "x") (some "https://a.example") (some (PyVal.pyInt 3))).1 =
      ShortenResult.reused "abcdefg" (fmtTs (5 + (3 : Int).toNat * usPerDay)) ∧
    selectById
        (shorten_url
          (shorten_url [("abcdefg", sampleRec (some (fmtTs (10 * usPerDay))))] 0
            (fun _ _ => "x") (some "https://a.example") (some (PyVal.pyInt 2))).2 5
          (fun _ _ => "x") (some "https://a.example") (some (PyVal.pyInt 3))).2 "abcdefg" =
      some { sampleRec (some (fmtTs (10 * usPerDay))) with
              expires_at := some (fmtTs (5 + (3 : Int).toNat * usPerDay)) } :=
  spec_C3 [("abcdefg", sampleRec (some (fmtTs (10 * usPerDay))))] (fun _ _ => "x")
    (fun _ _ => "x") 0 5 "https://a.example" "https://a.example" "abcdefg"
    (sampleRec (some (fmtTs (10 * usPerDay)))) (fmtTs (10 * usPerDay)) (10 * usPerDay) 2 3
    (by simp [nodupKeys, storeKeys]) (by decide) rfl rfl
    (parseTs_fmtTs _ (by decide)) (by decide) (by decide) (by decide) (by decide) (by decide)

theorem parse_expiry_days_error (v : PyVal) (hv : v ≠ PyVal.pyNone)
    (hbad : pyToInt v = Option.none ∨ ∃ n, pyToInt v = some n ∧ (n < 1 ∨ 365 < n)) :
    ∃ m, parse_expiry_days v = Except.error m := by
  have heval : parse_expiry_days v =
      (match pyToInt v with
       | Option.none => Except.error "Invalid expiry_days value"
       | some n =>
         if n < 1 ∨ n > 365 then Except.error "Expiry time must be between 1 and 365 days"
         else Except.ok n) := by
    cases v with
    | pyNone => exact absurd rfl hv
    | pyBool b => rfl
    | pyInt n => rfl
    | pyFloat q => rfl
    | pyStr s => rfl
  rw [heval]
  rcases hbad with h | ⟨n, hn, hr⟩
  · rw [h]
    exact ⟨_, rfl⟩
  · rw [hn]
    dsimp only
    rw [if_pos (by omega)]
    exact ⟨_, rfl⟩

/-- C5 (amended): `shorten` validates `expiry_days` with Python `int(...)`:
a present value on which the conversion raises `ValueError`, or whose
converted integer lies outside `[1, 365]`, fails with a validation error and
leaves the store unmutated; but values `int(...)` converts — floats truncated
toward zero, booleans as 0/1, underscore-grouped numeric strings — are
accepted whenever the result is in range (so a non-integer such as the float
2.5 passes validation, see the counterexample); an absent value defaults to
7 days in the stored stamp. -/
theorem spec_C5 :
    (∀ (store : Store) (now : Nat) (draw : Nat → Nat → String) (urlRaw : Option String)
        (v : PyVal), v ≠ PyVal.pyNone →
      (pyIntRaises v = true ∨ ∃ n, pyToInt v = some n ∧ (n < 1 ∨ 365 < n)) →
      (∃ m, (shorten_url store now draw urlRaw (some v)).1 =
        ShortenResult.validationError m) ∧
      (shorten_url store now draw urlRaw (some v)).2 = store) ∧
    (∀ q : Rat, pyToInt (PyVal.pyFloat q) = some (floatToInt q)) ∧
    (∀ b : Bool, pyToInt (PyVal.pyBool b) = some (if b then 1 else 0)) ∧
    (pyToInt (PyVal.pyStr "1_2") = some 12) ∧
    (∀ (store : Store) (now : Nat) (draw : Nat → Nat → String) (urlRaw : Option String)
        (c e : String),
      ((shorten_url store now draw urlRaw Option.none).1 = ShortenResult.reused c e ∨
        (shorten_url store now draw urlRaw Option.none).1 = ShortenResult.created c e) →
      e = fmtTs (now + 7 * usPerDay)) := by
  refine ⟨?_, fun q => rfl, fun b => rfl, by decide, ?_⟩
  · intro store now draw urlRaw v hv hbad
    have hbad' : pyToInt v = Option.none ∨ ∃ n, pyToInt v = some n ∧ (n < 1 ∨ 365 < n) := by
      rcases hbad with h | h
      · left
        cases v with
        | pyStr s =>
          rw [pyIntRaises, Bool.and_eq_true] at h
          have h1 := h.1
          rw [Option.isNone_iff_eq_none] at h1
          exact h1
        | pyNone => exact rfl
        | pyBool b => exact absurd h (by simp [pyIntRaises])
        | pyInt n => exact absurd h (by simp [pyIntRaises])
        | pyFloat q => exact absurd h (by simp [pyIntRaises])
      · right
        exact h
    obtain ⟨m, hm⟩ := parse_expiry_days_error v hv hbad'
    cases hn : normalize_url urlRaw with
    | error e =>
      rw [shorten_url_err_url store now draw urlRaw (some v) e hn]
      exact ⟨⟨e, rfl⟩, rfl⟩
    | ok u =>
      rw [shorten_url_err_days store now draw urlRaw (some v) u m hn hm]
      exact ⟨⟨m, rfl⟩, rfl⟩
  · intro store now draw urlRaw c e h
    cases hn : normalize_url urlRaw with
    | error er =>
      rw [shorten_url_err_url store now draw urlRaw Option.none er hn] at h
      rcases h with h | h <;> exact absurd h (by simp)
    | ok u =>
      have hpd : parse_expiry_days ((Option.none : Option PyVal).getD (PyVal.pyInt 7)) =
          Except.ok 7 := rfl
      have h7 : (7 : Int).toNat = 7 := rfl
      rw [shorten_url_eval store now draw urlRaw Option.none u 7 hn hpd, h7] at h
      cases hsel : selectByOrg store u with
      | none =>
        rw [hsel] at h
        dsimp only at h
        rcases h with h | h
        · simp [shortenFresh] at h
        · simp only [shortenFresh, ShortenResult.created.injEq] at h
          exact h.2.symm
      | some p =>
        rw [hsel] at h
        dsimp only at h
        by_cases hex : expiryIsPast now p.2.expires_at = true
        · rw [if_pos hex] at h
          rcases h with h | h
          · simp [shortenFresh] at h
          · simp only [shortenFresh, ShortenResult.created.injEq] at h
            exact h.2.symm
        · rw [if_neg hex] at h
          rcases h with h | h
          · simp only [ShortenResult.reused.injEq] at h
            exact h.2.symm
          · simp at h

/-- Witness for C5: the string `"abc"` is rejected as `expiry_days` without
touching the store, and an absent `expiry_days` stores `now + 7` days. -/
theorem spec_C5_witness :
    ((∃ m, (shorten_url [] 0 (fun _ _ => "x") (some "https://a.example")
        (some (PyVal.pyStr "abc"))).1 = ShortenResult.validationError m) ∧
      (shorten_url [] 0 (fun _ _ => "x") (some "https://a.example")
        (some (PyVal.pyStr "abc"))).2 = []) ∧
    fmtTs (0 + 7 * usPerDay) = fmtTs (0 + 7 * usPerDay) :=
  ⟨spec_C5.1 [] 0 (fun _ _ => "x") (some "https://a.example") (PyVal.pyStr "abc")
      (by decide) (Or.inl (by decide)),
    spec_C5.2.2.2.2 [] 0 (fun _ _ => "x") (some "https://a.example") "x"
      (fmtTs (0 + 7 * usPerDay)) (Or.inr (by decide))⟩

/-- Counterexample to C5 as stated: the JSON float `2.5` is not an integer
(its rational has denominator 2), yet `shorten` accepts it — `int(2.5)`
truncates to 2, in range — allocates a code with a 2-day stamp, and mutates
the store. -/
theorem spec_C5_cex :
    (mkRat 5 2).den ≠ 1 ∧
    pyToInt (PyVal.pyFloat (mkRat 5 2)) = some 2 ∧
    (shorten_url [] 0 (fun _ _ => "x") (some "https://a.example")
        (some (PyVal.pyFloat (mkRat 5 2)))).1 =
      ShortenResult.created "x" (fmtTs (0 + 2 * usPerDay)) ∧
    (shorten_url [] 0 (fun _ _ => "x") (some "https://a.example")
        (some (PyVal.pyFloat (mkRat 5 2)))).2 ≠ [] := by
  refine ⟨by decide, by decide, by decide, by decide⟩

/-- C6: the rate limiter admits an attempt iff fewer than 30 stamps remain in
the client's window after dropping stamps older than 60 seconds (pruning from
the deque's front, which on a time-ordered deque equals filtering the window);
the current stamp is appended only on admission; a 31st call inside one
60-second window is rejected while a call after the window elapses is
admitted; and the guard runs only for `POST /shorten`, never on resolution. -/
theorem spec_C6 :
    (∀ (now : Int) (q : List Int),
      ((rate_limit_guard now q).1 = true ↔ (pruneOld now q).length < RATE_LIMIT) ∧
      (rate_limit_guard now q).2 =
        (if (pruneOld now q).length < RATE_LIMIT then pruneOld now q ++ [now]
         else pruneOld now q)) ∧
    (∀ (now : Int) (q : List Int), List.Sorted (· ≤ ·) q →
      pruneOld now q = q.filter (fun t => decide (now - t ≤ RATE_WINDOW_SEC))) ∧
    ((runRateCalls (List.replicate 31 (0 : Int)) []).1 =
      List.replicate 30 true ++ [false]) ∧
    ((rate_limit_guard 61 (runRateCalls (List.replicate 31 (0 : Int)) []).2).1 = true) ∧
    (∀ path method : String,
      before_every_request path method = true ↔ path = "/shorten" ∧ method = "POST") := by
  have hR : RATE_LIMIT = 30 := rfl
  refine ⟨?_, ?_, by decide, by decide, ?_⟩
  · intro now q
    constructor
    · simp only [rate_limit_guard]
      by_cases h : RATE_LIMIT ≤ (pruneOld now q).length
      · rw [if_pos h]
        exact iff_of_false (by simp) (by omega)
      · rw [if_neg h]
        exact iff_of_true rfl (by omega)
    · simp only [rate_limit_guard]
      by_cases h : RATE_LIMIT ≤ (pruneOld now q).length
      · rw [if_pos h, if_neg (by omega)]
      · rw [if_neg h, if_pos (by omega)]
  · intro now q hs
    induction q with
    | nil => rfl
    | cons t rest ih =>
      rw [List.sorted_cons] at hs
      by_cases h : now - t > RATE_WINDOW_SEC
      · rw [show pruneOld now (t :: rest) = pruneOld now rest from by
          simp only [pruneOld]; rw [if_pos h]]
        rw [ih hs.2, List.filter_cons_of_neg]
        simp only [decide_eq_true_eq]
        omega
      · rw [show pruneOld now (t :: rest) = t :: rest from by
          simp only [pruneOld]; rw [if_neg h]]
        rw [eq_comm, List.filter_eq_self]
        intro a ha
        rcases List.mem_cons.1 ha with rfl | ha'
        · simp only [decide_eq_true_eq]
          omega
        · have hta := hs.1 a ha'
          simp only [decide_eq_true_eq]
          omega
  · intro path method
    simp [before_every_request, Bool.and_eq_true]

/-- Witness for C6: a sorted two-stamp window is pruned exactly to the stamps
within 60 seconds of the clock. -/
theorem spec_C6_witness :
    pruneOld 100 [10, 50] =
      List.filter (fun t => decide ((100 : Int) - t ≤ RATE_WINDOW_SEC)) [10, 50] :=
  spec_C6.2.1 100 [10, 50] (by decide)

/-- C7: a fresh `shorten` inserts the row with `click_count = 0` and
`last_accessed = NULL`; each successful resolution of a live code increments
`click_count` exactly once and stores `last_accessed = fmtTs` of that call's
clock, so after N successful resolutions the counter is the starting value
plus N and `last_accessed` carries the final call's instant (which is at or
after anything observed before that call). -/
theorem spec_C7 :
    (∀ (store : Store) (now : Nat) (draw : Nat → Nat → String) (raw u : String) (d : Int),
      normalize_url (some raw) = Except.ok u →
      1 ≤ d ∧ d ≤ 365 →
      selectByOrg store u = Option.none →
      ∃ sid,
        (shorten_url store now draw (some raw) (some (PyVal.pyInt d))).1 =
          ShortenResult.created sid (fmtTs (now + d.toNat * usPerDay)) ∧
        (selectById store sid = Option.none →
          selectById (shorten_url store now draw (some raw) (some (PyVal.pyInt d))).2 sid =
            some { org_url := u, created_at := fmtTs now,
                   expires_at := some (fmtTs (now + d.toNat * usPerDay)),
                   click_count := 0, last_accessed := Option.none })) ∧
    (∀ (store : Store) (code : String) (row : URLRecord) (s : String) (T : Nat)
        (times : List Nat),
      selectById store code = some row →
      row.expires_at = some s →
      parseTs s = some T →
      (∀ t ∈ times, ¬ T < t) →
      (resolveSeq code store times).1 =
        times.map (fun _ => ResolveResult.redirect row.org_url) ∧
      ∃ row', selectById (resolveSeq code store times).2 code = some row' ∧
        row'.click_count = row.click_count + times.length ∧
        row'.org_url = row.org_url ∧
        row'.expires_at = row.expires_at ∧
        (∀ tN, times.getLast? = some tN → row'.last_accessed = some (fmtTs tN)) ∧
        (times = [] → row' = row)) := by
  constructor
  · intro store now draw raw u d hn hd hsel
    have hpd : parse_expiry_days ((some (PyVal.pyInt d)).getD (PyVal.pyInt 7)) =
        Except.ok d := parse_expiry_days_int d hd
    rw [shorten_url_eval store now draw _ _ u d hn hpd, hsel]
    refine ⟨generate_unique_short_id store draw 7, rfl, fun hfresh => ?_⟩
    unfold shortenFresh
    dsimp only
    rw [selectById_append_none _ _ _ hfresh]
    simp [selectById]
  · intro store code row s T times
    induction times generalizing store row with
    | nil =>
      intro hsel hexp hparse hall
      refine ⟨rfl, row, hsel, by simp, rfl, rfl, ?_, fun _ => rfl⟩
      intro tN htN
      simp at htN
    | cons t ts ih =>
      intro hsel hexp hparse hall
      have hlive : expiryIsPast t row.expires_at = false := by
        rw [hexp]
        exact expiryIsPast_some_live _ T s hparse (hall t (by simp))
      have hres := get_original_url_of_found store t code row hsel hlive
      have hstep1 : (resolveSeq code store (t :: ts)).1 =
          ResolveResult.redirect row.org_url ::
            (resolveSeq code
              (mapValAt store code (fun r =>
                { r with click_count := r.click_count + 1,
                         last_accessed := some (fmtTs t) })) ts).1 := by
        simp only [resolveSeq, hres]
      have hstep2 : (resolveSeq code store (t :: ts)).2 =
          (resolveSeq code
            (mapValAt store code (fun r =>
              { r with click_count := r.click_count + 1,
                       last_accessed := some (fmtTs t) })) ts).2 := by
        simp only [resolveSeq, hres]
      have hsel1 : selectById
          (mapValAt store code (fun r =>
            { r with click_count := r.click_count + 1,
                     last_accessed := some (fmtTs t) })) code =
          some { row with click_count := row.click_count + 1,
                          last_accessed := some (fmtTs t) } := by
        rw [selectById_mapValAt_self, hsel]
        rfl
      obtain ⟨hmap, row', hsel', hclick, horg', hexp', hlast, hnil⟩ :=
        ih _ _ hsel1 hexp hparse (fun x hx => hall x (by simp [hx]))
      refine ⟨?_, row', ?_, ?_, ?_, ?_, ?_, ?_⟩
      · rw [hstep1, hmap]
        rfl
      · rw [hstep2]
        exact hsel'
      · rw [hclick]
        simp only [List.length_cons]
        omega
      · exact horg'
      · exact hexp'
      · intro tN htN
        cases ts with
        | nil =>
          have ht : tN = t := by
            simp at htN
            omega
          subst ht
          rw [hnil rfl]
        | cons t2 ts' =>
          rw [List.getLast?_cons_cons] at htN
          exact hlast tN htN
      · intro hcon
        exact absurd hcon (by simp)

/-- Witness for C7: two successful resolutions of a live row take the counter
from 0 to 2 and stamp the second call's clock. -/
theorem spec_C7_witness :
    (resolveSeq "abcdefg" [("abcdefg", sampleRec (some (fmtTs (10 * usPerDay))))] [1, 2]).1 =
      [ResolveResult.redirect "https://a.example", ResolveResult.redirect "https://a.example"] ∧
    ∃ row', selectById
        (resolveSeq "abcdefg" [("abcdefg", sampleRec (some (fmtTs (10 * usPerDay))))]
          [1, 2]).2 "abcdefg" = some row' ∧
      row'.click_count = 2 ∧ row'.last_accessed = some (fmtTs 2) := by
  obtain ⟨h1, row', h2, h3, h4, h5, h6, h7⟩ :=
    spec_C7.2 [("abcdefg", sampleRec (some (fmtTs (10 * usPerDay))))] "abcdefg"
      (sampleRec (some (fmtTs (10 * usPerDay)))) (fmtTs (10 * usPerDay)) (10 * usPerDay)
      [1, 2] rfl rfl (parseTs_fmtTs _ (by decide)) (by decide)
  refine ⟨by simpa [sampleRec] using h1, row', h2, ?_, h6 2 rfl⟩
  rw [h3]
  rfl

/-- C8 (amended): an allocation that exits through the collision-checked path
never returns a code live in the store, so two sequential allocations cannot
repeat a live code when the second one has a free candidate among its ten
checked draws; when all ten collide, the allocator returns the eleventh draw
at length + 1 with no further check (and that fallback can repeat a live
code, as the counterexample shows). -/
theorem spec_C8 :
    (∀ (store : Store) (draw : Nat → Nat → String) (len : Nat),
      (∃ i, i < 10 ∧ selectById store (draw i len) = Option.none) →
      selectById store (generate_unique_short_id store draw len) = Option.none) ∧
    (∀ (store : Store) (draw : Nat → Nat → String) (len : Nat),
      (∀ i, i < 10 → (selectById store (draw i len)).isSome = true) →
      generate_unique_short_id store draw len = draw 10 (len + 1)) ∧
    (∀ (store : Store) (draw draw2 : Nat → Nat → String) (r : URLRecord),
      (∃ i, i < 10 ∧
        selectById (store ++ [(generate_unique_short_id store draw 7, r)]) (draw2 i 7) =
          Option.none) →
      generate_unique_short_id (store ++ [(generate_unique_short_id store draw 7, r)])
          draw2 7 ≠
        generate_unique_short_id store draw 7) := by
  refine ⟨fun store draw len h => generate_unique_short_id_fresh store draw len h, ?_, ?_⟩
  · intro store draw len h
    have hall := genAux_all_collide store draw len 10 0 (fun j hj => by
      have := h j hj
      simpa using this)
    simpa using hall
  · intro store draw draw2 r h hcon
    have h1 := generate_unique_short_id_fresh _ draw2 7 h
    rw [hcon] at h1
    have h2 : selectById (store ++ [(generate_unique_short_id store draw 7, r)])
        (generate_unique_short_id store draw 7) ≠ Option.none := by
      cases hx : selectById store (generate_unique_short_id store draw 7) with
      | some v =>
        rw [selectById_append_some _ _ _ _ hx]
        simp
      | none =>
        rw [selectById_append_none _ _ _ hx]
        simp [selectById]
    exact h2 h1

/-- Witness for C8: a store whose only length-7 code differs from the first
checked candidate, so both sequential allocations stay collision-free. -/
theorem spec_C8_witness :
    selectById [("AAAAAAA", sampleRec Option.none)]
      (generate_unique_short_id [("AAAAAAA", sampleRec Option.none)]
        (fun _ _ => "ZZZZZZZ") 7) = Option.none :=
  spec_C8.1 [("AAAAAAA", sampleRec Option.none)] (fun _ _ => "ZZZZZZZ") 7
    ⟨0, by omega, by decide⟩

/-- Counterexample to C8 as stated: with every length-7 candidate colliding,
two sequential allocations both return the unchecked fallback draw
`"BBBBBBBB"`, the second while the first is still live in the store. -/
theorem spec_C8_cex :
    (selectById
        ([("AAAAAAA", sampleRec Option.none)] ++
          [(generate_unique_short_id [("AAAAAAA", sampleRec Option.none)]
              (fun _ len => if len = 7 then "AAAAAAA" else "BBBBBBBB") 7,
            sampleRec Option.none)])
        (generate_unique_short_id [("AAAAAAA", sampleRec Option.none)]
          (fun _ len => if len = 7 then "AAAAAAA" else "BBBBBBBB") 7)).isSome = true ∧
    generate_unique_short_id
        ([("AAAAAAA", sampleRec Option.none)] ++
          [(generate_unique_short_id [("AAAAAAA", sampleRec Option.none)]
              (fun _ len => if len = 7 then "AAAAAAA" else "BBBBBBBB") 7,
            sampleRec Option.none)])
        (fun _ len => if len = 7 then "AAAAAAA" else "BBBBBBBB") 7 =
      generate_unique_short_id [("AAAAAAA", sampleRec Option.none)]
        (fun _ len => if len = 7 then "AAAAAAA" else "BBBBBBBB") 7 := by
  constructor <;> rfl

/-- C9 (amended): one reaper cycle keeps exactly the rows whose `expires_at`
is null or not byte-wise below the formatted current time; on canonically
formatted stamps byte-wise TEXT comparison coincides with chronological
order, but an unparseable legacy stamp is deleted only when it happens to
compare below the formatted clock string. -/
theorem spec_C9 :
    (∀ (now : Nat) (store : Store) (p : String × URLRecord), p ∈ store →
      (p ∈ cleanup_expired_step now store ↔
        (p.2.expires_at = Option.none ∨
          ∃ s, p.2.expires_at = some s ∧ sqlTextLt s (fmtTs now) = false))) ∧
    (∀ (s : String) (t now : Nat), parseTs s = some t → now < 10 ^ 20 →
      (sqlTextLt s (fmtTs now) = true ↔ t < now)) := by
  constructor
  · intro now store p hp
    unfold cleanup_expired_step
    rw [List.mem_filter]
    constructor
    · rintro ⟨hmem, hpred⟩
      cases hx : p.2.expires_at with
      | none => exact Or.inl rfl
      | some s =>
        rw [hx] at hpred
        dsimp only at hpred
        refine Or.inr ⟨s, rfl, ?_⟩
        cases hlt : sqlTextLt s (fmtTs now) with
        | false => rfl
        | true =>
          rw [hlt] at hpred
          exact absurd hpred (by decide)
    · intro h
      refine ⟨hp, ?_⟩
      rcases h with hnone | ⟨s, hs, hlt⟩
      · rw [hnone]
      · rw [hs]
        dsimp only
        rw [hlt]
        rfl
  · intro s t now hp hnow
    obtain ⟨hs, hb⟩ := parseTs_some hp
    rw [hs]
    exact sqlTextLt_fmtTs_iff t now hb hnow

/-- Witness for C9: the membership characterization on a one-row store with a
legacy stamp, and the chronological reading of the comparison on canonical
stamps. -/
theorem spec_C9_witness :
    (("abcdefg", sampleRec (some "legacy")) ∈
        cleanup_expired_step 5 [("abcdefg", sampleRec (some "legacy"))] ↔
      ((sampleRec (some "legacy")).expires_at = Option.none ∨
        ∃ s, (sampleRec (some "legacy")).expires_at = some s ∧
          sqlTextLt s (fmtTs 5) = false)) ∧
    (sqlTextLt (fmtTs 3) (fmtTs 5) = true ↔ 3 < 5) :=
  ⟨spec_C9.1 5 [("abcdefg", sampleRec (some "legacy"))]
      ("abcdefg", sampleRec (some "legacy")) (by simp),
    spec_C9.2 (fmtTs 3) 3 5 (parseTs_fmtTs 3 (by decide)) (by decide)⟩

/-- Counterexample to C9 as stated: a stored row whose `expires_at` is the
unparseable legacy stamp `"legacy-bad-stamp"` survives a reaper cycle intact,
because the stamp does not compare byte-wise below the formatted clock. -/
theorem spec_C9_cex :
    parseTs "legacy-bad-stamp" = Option.none ∧
    expiryIsPast 5 (some "legacy-bad-stamp") = true ∧
    cleanup_expired_step 5 [("abcdefg", sampleRec (some "legacy-bad-stamp"))] =
      [("abcdefg", sampleRec (some "legacy-bad-stamp"))] := by
  refine ⟨rfl, rfl, rfl⟩

end Shortly
